import Mathlib

/-!
# ServiceNow "Get Incidents" component

A shallow embedding of `pkg/integrations/servicenow/get_incidents.go`
(`buildQuery`, `determineOutputChannel`, `Setup`, `Execute`) together with the
properties the component's specification states about them.

Go strings are embedded as `String`, Go `int` as `Int` (the only arithmetic on
it is a comparison with zero), slices as `List`, and `error` as the inductive
`GoError` below, whose `Error` is the message `fmt.Errorf` would build.
-/

namespace ServiceNow

/-! ## Data model -/

/-- Output channel name `ChannelNameClear`. -/
def ChannelNameClear : String := "clear"

/-- Output channel name `ChannelNameLow`. -/
def ChannelNameLow : String := "low"

/-- Output channel name `ChannelNameHigh`. -/
def ChannelNameHigh : String := "high"

/-- The filter specification `GetIncidentsSpec` (get_incidents.go, lines 22-34). -/
structure GetIncidentsSpec where
  AssignmentGroup : String
  AssignedTo : String
  Caller : String
  Category : String
  Subcategory : String
  Service : String
  State : String
  Urgency : String
  Impact : String
  Priority : String
  Limit : Int
  deriving DecidableEq, Repr

/-- The zero value `GetIncidentsSpec{}` that configuration decoding starts from. -/
def GetIncidentsSpec.zero : GetIncidentsSpec :=
  ⟨"", "", "", "", "", "", "", "", "", "", 0⟩

/-- Record `ResourceInfo` (common.go, lines 13-16). -/
structure ResourceInfo where
  ID : String
  Name : String
  deriving DecidableEq, Repr

/-- Record `NodeMetadata` (common.go, lines 5-11); a nil pointer is `none`. -/
structure NodeMetadata where
  WebhookURL : String
  InstanceURL : String
  AssignmentGroup : Option ResourceInfo
  AssignedTo : Option ResourceInfo
  Caller : Option ResourceInfo
  deriving DecidableEq, Repr

/-- Modelled from the spec: the type `IncidentRecord` is declared outside the
files at hand; the spec lists its fields as identifier, number, short
description, state, urgency and impact, and the tests build it with `SysID`
and `Urgency`. -/
structure IncidentRecord where
  SysID : String
  Number : String
  ShortDescription : String
  State : String
  Urgency : String
  Impact : String
  deriving DecidableEq, Repr

/-! ## Query builder -/

/-- The function `buildQuery` (get_incidents.go, lines 344-388): ten guarded
appends to `parts`, then `strings.Join(parts, "^")`. -/
def buildQuery (spec : GetIncidentsSpec) : String :=
  let parts : List String := []
  let parts := if spec.AssignmentGroup ≠ "" then
    parts ++ ["assignment_group=" ++ spec.AssignmentGroup] else parts
  let parts := if spec.AssignedTo ≠ "" then
    parts ++ ["assigned_to=" ++ spec.AssignedTo] else parts
  let parts := if spec.Caller ≠ "" then
    parts ++ ["caller_id=" ++ spec.Caller] else parts
  let parts := if spec.Category ≠ "" then
    parts ++ ["category=" ++ spec.Category] else parts
  let parts := if spec.Subcategory ≠ "" then
    parts ++ ["subcategory=" ++ spec.Subcategory] else parts
  let parts := if spec.Service ≠ "" then
    parts ++ ["business_service=" ++ spec.Service] else parts
  let parts := if spec.State ≠ "" then
    parts ++ ["stateIN" ++ spec.State] else parts
  let parts := if spec.Urgency ≠ "" then
    parts ++ ["urgencyIN" ++ spec.Urgency] else parts
  let parts := if spec.Impact ≠ "" then
    parts ++ ["impactIN" ++ spec.Impact] else parts
  let parts := if spec.Priority ≠ "" then
    parts ++ ["priorityIN" ++ spec.Priority] else parts
  String.intercalate "^" parts

/-- The filters of a specification in the declaration order the specification
fixes, each paired with the text its clause starts with: `field=` for the six
equality filters and `fieldIN` for the four set-membership filters. -/
def filterTable (spec : GetIncidentsSpec) : List (String × String) :=
  [ ("assignment_group=", spec.AssignmentGroup),
    ("assigned_to=", spec.AssignedTo),
    ("caller_id=", spec.Caller),
    ("category=", spec.Category),
    ("subcategory=", spec.Subcategory),
    ("business_service=", spec.Service),
    ("stateIN", spec.State),
    ("urgencyIN", spec.Urgency),
    ("impactIN", spec.Impact),
    ("priorityIN", spec.Priority) ]

/-- The clause of one filter as the specification words it: nothing for an
empty value, otherwise the field's text followed by the value. -/
def clauseOf (entry : String × String) : Option String :=
  if entry.2 = "" then none else some (entry.1 ++ entry.2)

/-- The clauses of the non-empty filters, in declaration order. -/
def specClauses (spec : GetIncidentsSpec) : List String :=
  (filterTable spec).filterMap clauseOf

/-- The query as the specification words it: the clauses of the non-empty
filters joined by a single `^`. -/
def specQuery (spec : GetIncidentsSpec) : String :=
  String.intercalate "^" (specClauses spec)

/-! ## Severity router -/

/-- The `for ... range incidents` loop of `determineOutputChannel`
(lines 395-401): return `high` at the first record whose urgency is `"1"`,
and `low` when the loop runs to its end. -/
def determineOutputChannel.scan : List IncidentRecord → String
  | [] => ChannelNameLow
  | incident :: rest =>
    if incident.Urgency = "1" then ChannelNameHigh
    else determineOutputChannel.scan rest

/-- The method `determineOutputChannel` (get_incidents.go, lines 390-402). -/
def determineOutputChannel (incidents : List IncidentRecord) : String :=
  if incidents.length = 0 then ChannelNameClear
  else determineOutputChannel.scan incidents

/-! ## Errors, collaborators and the calls made on them -/

/-- A Go `error`: either one a collaborator produced, or the result of
`fmt.Errorf(context + "%w", cause)`. -/
inductive GoError where
  | msg (text : String)
  | wrapped (context : String) (cause : GoError)
  deriving DecidableEq, Repr

/-- The message `err.Error()`: `%w` is replaced by the message of the cause. -/
def GoError.Error : GoError → String
  | .msg text => text
  | .wrapped context cause => context ++ cause.Error

/-- Modelled from the spec: the type `resourceSpec` is declared outside the
files at hand; the spec gives the resolver up to three raw identifiers, the
assignment-group id, the assigned-user id and the caller id, and `Setup` builds
the value as `resourceSpec{AssignmentGroup, AssignedTo, Caller}`
(get_incidents.go, lines 296-300). -/
structure resourceSpec where
  AssignmentGroup : String
  AssignedTo : String
  Caller : String
  deriving DecidableEq, Repr

/-- The payload `map[string]any{"incidents": incidents, "total": len(incidents)}`
built by `Execute` (lines 332-335). -/
structure ResponseData where
  incidents : List IncidentRecord
  total : Nat
  deriving DecidableEq, Repr

/-- One call on a collaborator, with the arguments it was given. -/
inductive Call where
  | MetadataGet
  | NewClient
  | ResolveResourceMetadata (spec : resourceSpec)
  | MetadataSet (metadata : NodeMetadata)
  | GetIncidents (query : String) (limit : Int)
  | Emit (channel : String) (payloadType : String) (payloads : List ResponseData)
  deriving DecidableEq, Repr

/-- Everything `Setup` and `Execute` call but do not define in the files at
hand, as functions of the arguments the code passes. `AnyValue` is Go's `any`
(the stored metadata, the configuration map) and `Client` the value `NewClient`
returns.

* `decodeNodeMetadata v` is `mapstructure.Decode(v, &existing)`;
* `decodeSpec v` is `mapstructure.Decode(v, &spec)` on `spec := GetIncidentsSpec{}`;
* `NewClient` is `NewClient(ctx.HTTP, ctx.Integration)`;
* `resolveResourceMetadata` is the package helper of that name;
* `MetadataSet stored m` is `ctx.Metadata.Set(m)`: the error it returns and the
  value the store holds afterwards, `stored` being what it held before;
* `GetIncidents` is `client.GetIncidents(query, limit)`;
* `Emit` is `ctx.ExecutionState.Emit(channel, payloadType, payloads)`;
* `PayloadTypeIncidents` is the package constant of that name. -/
structure Collaborators (AnyValue Client : Type) where
  decodeNodeMetadata : AnyValue → Except GoError NodeMetadata
  decodeSpec : AnyValue → Except GoError GetIncidentsSpec
  NewClient : Except GoError Client
  resolveResourceMetadata : Client → resourceSpec → Except GoError NodeMetadata
  MetadataSet : AnyValue → NodeMetadata → Option GoError × AnyValue
  GetIncidents : Client → String → Int → Except GoError (List IncidentRecord)
  Emit : String → String → List ResponseData → Option GoError
  PayloadTypeIncidents : String

/-- What one call of `Setup` or `Execute` leaves behind: the error returned
(`none` is `nil`), the value the metadata store holds afterwards, and the
collaborator calls made, in order. -/
structure Outcome (AnyValue : Type) where
  err : Option GoError
  metadata : AnyValue
  calls : List Call

/-! ## Component lifecycle -/

/-- The method `Setup` (get_incidents.go, lines 276-306). `Configuration` is
`ctx.Configuration` and `stored` the value `ctx.Metadata.Get()` returns. -/
def Setup {AnyValue Client : Type} (env : Collaborators AnyValue Client)
    (Configuration : AnyValue) (stored : AnyValue) : Outcome AnyValue :=
  let calls := [Call.MetadataGet]
  match env.decodeNodeMetadata stored with
  | .error err =>
    ⟨some (.wrapped "failed to decode node metadata: " err), stored, calls⟩
  | .ok existing =>
    if existing.InstanceURL ≠ "" then ⟨none, stored, calls⟩
    else
      match env.decodeSpec Configuration with
      | .error err =>
        ⟨some (.wrapped "error decoding configuration: " err), stored, calls⟩
      | .ok spec =>
        let calls := calls ++ [Call.NewClient]
        match env.NewClient with
        | .error err =>
          ⟨some (.wrapped "error creating client: " err), stored, calls⟩
        | .ok client =>
          let resources : resourceSpec :=
            { AssignmentGroup := spec.AssignmentGroup
              AssignedTo := spec.AssignedTo
              Caller := spec.Caller }
          let calls := calls ++ [Call.ResolveResourceMetadata resources]
          match env.resolveResourceMetadata client resources with
          | .error err => ⟨some err, stored, calls⟩
          | .ok metadata =>
            let calls := calls ++ [Call.MetadataSet metadata]
            let written := env.MetadataSet stored metadata
            ⟨written.1, written.2, calls⟩

/-- The method `Execute` (get_incidents.go, lines 308-342). It never touches
the metadata store, so `stored` is handed back as it came. -/
def Execute {AnyValue Client : Type} (env : Collaborators AnyValue Client)
    (Configuration : AnyValue) (stored : AnyValue) : Outcome AnyValue :=
  match env.decodeSpec Configuration with
  | .error err =>
    ⟨some (.wrapped "error decoding configuration: " err), stored, []⟩
  | .ok spec =>
    let calls := [Call.NewClient]
    match env.NewClient with
    | .error err =>
      ⟨some (.wrapped "error creating client: " err), stored, calls⟩
    | .ok client =>
      let query := buildQuery spec
      let limit := spec.Limit
      let limit := if limit ≤ 0 then 10 else limit
      let calls := calls ++ [Call.GetIncidents query limit]
      match env.GetIncidents client query limit with
      | .error err =>
        ⟨some (.wrapped "failed to get incidents: " err), stored, calls⟩
      | .ok incidents =>
        let channel := determineOutputChannel incidents
        let responseData : ResponseData :=
          { incidents := incidents, total := incidents.length }
        let calls := calls ++
          [Call.Emit channel env.PayloadTypeIncidents [responseData]]
        ⟨env.Emit channel env.PayloadTypeIncidents [responseData], stored, calls⟩

/-- Text `sub` occurs in `s` (Go's `strings.Contains(s, sub)`). -/
def containsText (s sub : String) : Prop := sub.data <:+: s.data

/-- A value of Go's `any` as the sample host stores and passes it. -/
inductive SampleValue where
  | null
  | metadata (m : NodeMetadata)
  | config (spec : GetIncidentsSpec)
  | malformed
  deriving DecidableEq, Repr

/-- The zero value `NodeMetadata{}`. -/
def NodeMetadata.zero : NodeMetadata := ⟨"", "", none, none, none⟩

/-- A sample host: decoding accepts `nil` and values of the right shape, client
construction succeeds, and the four outbound behaviours are given: the
resolver, the error of the metadata write (a write that succeeds replaces the
stored value), the result of the list call and the error of the emit. -/
def sampleHost (resolve : resourceSpec → Except GoError NodeMetadata)
    (setErr : Option GoError) (list : Except GoError (List IncidentRecord))
    (emitErr : Option GoError) : Collaborators SampleValue Unit where
  decodeNodeMetadata := fun v =>
    match v with
    | .null => .ok NodeMetadata.zero
    | .metadata m => .ok m
    | _ => .error (.msg "expected a map, got unconvertible type")
  decodeSpec := fun v =>
    match v with
    | .null => .ok GetIncidentsSpec.zero
    | .config spec => .ok spec
    | _ => .error (.msg "expected a map, got unconvertible type")
  NewClient := .ok ()
  resolveResourceMetadata := fun _ resources => resolve resources
  MetadataSet := fun stored m =>
    match setErr with
    | none => (none, .metadata m)
    | some e => (some e, stored)
  GetIncidents := fun _ _ _ => list
  Emit := fun _ _ _ => emitErr
  PayloadTypeIncidents := "servicenow.incidents"

/-- A resolver for the sample host: it knows the group `grp1` and the users
`user1` and `user2` of the package tests, and fails on any other identifier. -/
def sampleResolve (resources : resourceSpec) : Except GoError NodeMetadata :=
  if resources.AssignmentGroup ≠ "" ∧ resources.AssignmentGroup ≠ "grp1" then
    .error (.wrapped "error verifying assignment group: " (.msg "request got 404 code"))
  else if resources.AssignedTo ≠ "" ∧ resources.AssignedTo ≠ "user1" then
    .error (.wrapped "error verifying assigned user: " (.msg "request got 404 code"))
  else if resources.Caller ≠ "" ∧ resources.Caller ≠ "user2" then
    .error (.wrapped "error verifying caller: " (.msg "request got 404 code"))
  else
    .ok { WebhookURL := ""
          InstanceURL := "https://dev12345.service-now.com"
          AssignmentGroup :=
            if resources.AssignmentGroup = "" then none else some ⟨"grp1", "Network"⟩
          AssignedTo :=
            if resources.AssignedTo = "" then none else some ⟨"user1", "John Smith"⟩
          Caller :=
            if resources.Caller = "" then none else some ⟨"user2", "Jane Doe"⟩ }

/-- An incident record with the given identifier and urgency, other fields empty. -/
def sampleIncident (sysID urgency : String) : IncidentRecord :=
  ⟨sysID, "", "", "", urgency, ""⟩


/-! ## Splitting a query -/

/-- Go's `strings.Split(s, sep)` for a separator of one character: the pieces
of `s` between the occurrences of `sep`, so one piece more than there are
occurrences and the single piece `""` for the empty string. The separator
`^` is one byte in UTF-8 and occurs in no longer encoding, so splitting by
characters and splitting by bytes cut at the same places. -/
def splitOnChar (s : String) (sep : Char) : List String :=
  (s.data.splitOn sep).map String.mk

end ServiceNow

/-!
# CLI context store

A shallow embedding of `pkg/cli/configuration.go`. Strings are embedded as
`String` and handled through their characters. Go indexes strings by bytes;
the only index the file computes is that of a `/`, which is one byte in UTF-8
and part of no longer encoding, so `LastIndex`, `len` and the two slices are
taken in characters here and cut at the same places.
-/

namespace CLI

open ServiceNow (GoError)

/-! ## Data model and string helpers -/

/-- Record `ConfigContext` (configuration.go, lines 10-14). -/
structure ConfigContext where
  URL : String
  Organization : String
  APIToken : String
  deriving DecidableEq, Repr

/-- The zero value `ConfigContext{}`. -/
def ConfigContext.zero : ConfigContext := ⟨"", "", ""⟩

/-- Go's `unicode.IsSpace`: tab, line feed, vertical tab, form feed, carriage
return, space, U+0085, U+00A0 and the other code points with the Unicode
White_Space property. -/
def isSpace (c : Char) : Bool :=
  let n := c.toNat
  decide ((9 ≤ n ∧ n ≤ 13) ∨ n = 32 ∨ n = 0x85 ∨ n = 0xA0 ∨ n = 0x1680
    ∨ (0x2000 ≤ n ∧ n ≤ 0x200A) ∨ n = 0x2028 ∨ n = 0x2029 ∨ n = 0x202F
    ∨ n = 0x205F ∨ n = 0x3000)

/-- Go's `strings.TrimSpace`: leading and trailing white space removed. -/
def TrimSpace (s : String) : String :=
  ⟨(s.data.dropWhile isSpace).rdropWhile isSpace⟩

/-- Go's `strings.TrimRight(s, cutset)`: trailing characters that occur in
`cutset` removed. -/
def TrimRight (s cutset : String) : String :=
  ⟨s.data.rdropWhile (fun c => cutset.data.contains c)⟩

/-- The scan behind `LastIndex`: `last` is the index of the latest occurrence
seen so far and `index` the position of the head of the list. -/
def LastIndex.scan (sep : Char) : List Char → Int → Int → Int
  | [], _, last => last
  | c :: rest, index, last =>
    LastIndex.scan sep rest (index + 1) (if c = sep then index else last)

/-- Go's `strings.LastIndex(s, substr)` for a `substr` of one character: the
index of its last occurrence in `s`, or `-1` when there is none. -/
def LastIndex (s : String) (sep : Char) : Int :=
  LastIndex.scan sep s.data 0 (-1)

/-! ## Normalisation and selectors -/

/-- The function `normalizeBaseURL` (configuration.go, lines 16-19). -/
def normalizeBaseURL (raw : String) : String :=
  let baseURL := TrimSpace raw
  TrimRight baseURL "/"

/-- The function `normalizeContext` (configuration.go, lines 21-26). -/
def normalizeContext (context : ConfigContext) : ConfigContext :=
  let context := { context with URL := normalizeBaseURL context.URL }
  let context := { context with Organization := TrimSpace context.Organization }
  let context := { context with APIToken := TrimSpace context.APIToken }
  context

/-- The function `ContextSelector` (configuration.go, lines 28-31);
`fmt.Sprintf("%s/%s", a, b)` is `a ++ "/" ++ b`. -/
def ContextSelector (context : ConfigContext) : String :=
  let context := normalizeContext context
  context.URL ++ "/" ++ context.Organization

/-- The function `normalizeContextSelector` (configuration.go, lines 33-45). -/
def normalizeContextSelector (raw : String) : String :=
  let selector := TrimSpace raw
  let selector := TrimRight selector "/"
  let splitIndex := LastIndex selector '/'
  if splitIndex ≤ 0 ∨ splitIndex = (selector.data.length : Int) - 1 then
    selector
  else
    let baseURL := normalizeBaseURL ⟨selector.data.take splitIndex.toNat⟩
    let organization := TrimSpace ⟨selector.data.drop (splitIndex + 1).toNat⟩
    baseURL ++ "/" ++ organization

/-! ## The viper store -/

/-- The state of viper as the file uses it: `contexts` is what
`viper.UnmarshalKey(ConfigKeyContexts, &contexts)` yields (`none` when it
returns an error), `currentContext` is `viper.GetString(ConfigKeyCurrentContext)`,
and `writes` counts the calls of `viper.WriteConfig()` made so far. -/
structure Viper where
  contexts : Option (List ConfigContext)
  currentContext : String
  writes : Nat
  deriving DecidableEq, Repr

/-- The loop of `GetContexts` (lines 54-60): normalise each context, skip it
when its URL or API token is empty, append it otherwise. -/
def GetContexts.loop : List ConfigContext → List ConfigContext → List ConfigContext
  | [], normalized => normalized
  | context :: rest, normalized =>
    let context := normalizeContext context
    if context.URL = "" ∨ context.APIToken = "" then
      GetContexts.loop rest normalized
    else
      GetContexts.loop rest (normalized ++ [context])

/-- The function `GetContexts` (configuration.go, lines 47-63); the nil slice
returned on an unmarshalling error is the empty list. -/
def GetContexts (viper : Viper) : List ConfigContext :=
  match viper.contexts with
  | none => []
  | some contexts => GetContexts.loop contexts []

/-- The loops `for i, context := range contexts` that look for a selector
(lines 110-115 and 141-146): the index of the first context whose
`ContextSelector` is `selector`, counted from `index`, or `-1`. -/
def selectorIndex (selector : String) : List ConfigContext → Int → Int
  | [], _ => -1
  | context :: rest, index =>
    if ContextSelector context = selector then index
    else selectorIndex selector rest (index + 1)

/-- The loop of `GetCurrentContext` (lines 76-82): the first context whose
selector is `currentSelector`, with `true`, or the zero context with `false`. -/
def GetCurrentContext.loop (currentSelector : String) :
    List ConfigContext → ConfigContext × Bool
  | [] => (ConfigContext.zero, false)
  | context :: rest =>
    if ContextSelector context = currentSelector then (context, true)
    else GetCurrentContext.loop currentSelector rest

/-- The function `GetCurrentContext` (configuration.go, lines 65-83). -/
def GetCurrentContext (viper : Viper) : ConfigContext × Bool :=
  let contexts := GetContexts viper
  if contexts.length = 0 then (ConfigContext.zero, false)
  else
    let currentSelector := normalizeContextSelector viper.currentContext
    if currentSelector = "" then (ConfigContext.zero, false)
    else GetCurrentContext.loop currentSelector contexts

/-- The function `WriteConfig` (configuration.go, lines 85-91); `writeErr` is
what `viper.WriteConfig()` returns. -/
def WriteConfig (writeErr : Option GoError) (viper : Viper) : Option GoError × Viper :=
  let viper := { viper with writes := viper.writes + 1 }
  match writeErr with
  | some err => (some (.wrapped "failed to write configuration: " err), viper)
  | none => (none, viper)

/-- The function `SaveContexts` (configuration.go, lines 93-96). -/
def SaveContexts (writeErr : Option GoError) (viper : Viper)
    (contexts : List ConfigContext) : Option GoError × Viper :=
  let viper := { viper with contexts := some contexts }
  WriteConfig writeErr viper

/-- The function `SaveCurrentContextBySelector` (configuration.go, lines
98-128). The `%q` of the "not found" message is rendered with `String.quote`.
The index the loop found is within the list, so the lookup
`contexts[selectedIndex]` has a value; the `none` branch stands for Go's
out-of-range panic. -/
def SaveCurrentContextBySelector (writeErr : Option GoError) (viper : Viper)
    (selector : String) : Except GoError ConfigContext × Viper :=
  let contexts := GetContexts viper
  if contexts.length = 0 then (.error (.msg "no contexts configured"), viper)
  else
    let normalizedSelector := normalizeContextSelector selector
    if normalizedSelector = "" then
      (.error (.msg "context selector is required"), viper)
    else
      let selectedIndex := selectorIndex normalizedSelector contexts 0
      if selectedIndex = -1 then
        (.error (.msg ("context " ++ normalizedSelector.quote ++ " not found")), viper)
      else
        match contexts.get? selectedIndex.toNat with
        | none => (.error (.msg "index out of range"), viper)
        | some selected =>
          let viper := { viper with currentContext := ContextSelector selected }
          match WriteConfig writeErr viper with
          | (some err, viper) => (.error err, viper)
          | (none, viper) => (.ok selected, viper)

/-- The function `UpsertContext` (configuration.go, lines 130-161). -/
def UpsertContext (writeErr : Option GoError) (viper : Viper)
    (context : ConfigContext) : Except GoError ConfigContext × Viper :=
  let context := normalizeContext context
  if context.URL = "" then (.error (.msg "organization URL is required"), viper)
  else if context.APIToken = "" then (.error (.msg "API token is required"), viper)
  else
    let contexts := GetContexts viper
    let existingIndex := selectorIndex (ContextSelector context) contexts 0
    let contexts :=
      if existingIndex ≥ 0 then contexts.set existingIndex.toNat context
      else contexts ++ [context]
    let viper := { viper with contexts := some contexts }
    let viper := { viper with currentContext := ContextSelector context }
    match WriteConfig writeErr viper with
    | (some err, viper) => (.error err, viper)
    | (none, viper) => (.ok context, viper)

/-- The last character of `s` is white space. -/
def endsInSpace (s : String) : Bool :=
  match s.data.getLast? with
  | some c => isSpace c
  | none => false

end CLI

namespace ServiceNow

/-! ## Query builder: properties -/

/-- One guarded append of `buildQuery` adds the clause of its filter, which is
no clause at all when the value is empty. -/
theorem guarded_append_eq (parts : List String) (field value : String) :
    (if value ≠ "" then parts ++ [field ++ value] else parts)
      = parts ++ (clauseOf (field, value)).toList := by
  by_cases h : value = "" <;> simp [clauseOf, h]

/-- Collecting clauses over a table, entry by entry. -/
theorem filterMap_clauseOf_cons (entry : String × String)
    (rest : List (String × String)) :
    (entry :: rest).filterMap clauseOf
      = (clauseOf entry).toList ++ rest.filterMap clauseOf := by
  cases h : clauseOf entry <;> simp [List.filterMap_cons, h]

/-- The list that `buildQuery` joins is the list of clauses of the non-empty
filters. -/
theorem buildQuery_eq_specQuery (spec : GetIncidentsSpec) :
    buildQuery spec = specQuery spec := by
  simp only [buildQuery, guarded_append_eq]
  simp only [specQuery, specClauses, filterTable, filterMap_clauseOf_cons,
    List.filterMap_nil, List.append_assoc, List.nil_append, List.append_nil]

/-- C1. For every filter specification `buildQuery` returns the clauses of the
non-empty filters, in the order group, assignee, caller, category, subcategory,
service, state, urgency, impact, priority, joined by a single `^`, the six
equality filters rendered `field=value` and the four set-membership filters
`fieldINvalue`; the all-empty specification yields the empty string whatever
its limit, and changing the limit never changes the result. -/
theorem buildQuery_clauses (spec : GetIncidentsSpec) :
    buildQuery spec
        = String.intercalate "^"
            ([ ("assignment_group=", spec.AssignmentGroup),
               ("assigned_to=", spec.AssignedTo),
               ("caller_id=", spec.Caller),
               ("category=", spec.Category),
               ("subcategory=", spec.Subcategory),
               ("business_service=", spec.Service),
               ("stateIN", spec.State),
               ("urgencyIN", spec.Urgency),
               ("impactIN", spec.Impact),
               ("priorityIN", spec.Priority) ].filterMap
              (fun entry => if entry.2 = "" then none else some (entry.1 ++ entry.2)))
      ∧ (∀ limit : Int, buildQuery ⟨"", "", "", "", "", "", "", "", "", "", limit⟩ = "")
      ∧ (∀ limit : Int, buildQuery { spec with Limit := limit } = buildQuery spec) := by
  refine ⟨?_, ?_, ?_⟩
  · exact buildQuery_eq_specQuery spec
  · intro limit
    rw [buildQuery_eq_specQuery]
    rfl
  · intro limit
    rfl


/-- The query of the package test "builds query with all filters". -/
theorem buildQuery_test_all_filters :
    buildQuery ⟨"grp1", "user1", "user2", "software", "", "", "1,2", "1", "1,2", "", 20⟩
      = "assignment_group=grp1^assigned_to=user1^caller_id=user2^category=software^stateIN1,2^urgencyIN1^impactIN1,2" := by
  rw [buildQuery_eq_specQuery]
  decide

/-! ## Splitting a query: properties -/

/-- The characters of `String.intercalate.go`: the accumulator followed by each
remaining string preceded by the separator. -/
theorem intercalate_go_data (acc sep : String) (rest : List String) :
    (String.intercalate.go acc sep rest).data
      = acc.data ++ (rest.map (fun piece => sep.data ++ piece.data)).flatten := by
  induction rest generalizing acc with
  | nil => simp [String.intercalate.go]
  | cons head tail ih =>
    simp [String.intercalate.go, ih, String.data_append, List.append_assoc]

/-- Interspersing a separator and flattening: the head followed by each
remaining list preceded by the separator. -/
theorem flatten_intersperse_cons {α : Type} (sep head : List α) (tail : List (List α)) :
    ((head :: tail).intersperse sep).flatten
      = head ++ (tail.map (fun piece => sep ++ piece)).flatten := by
  induction tail generalizing head with
  | nil => simp
  | cons next rest ih =>
    rw [List.intersperse_cons_cons, List.flatten_cons, List.flatten_cons, ih]
    simp [List.append_assoc]

/-- The characters of a joined list of strings are the lists of characters
joined by the characters of the separator. -/
theorem intercalate_data (sep : String) (pieces : List String) :
    (String.intercalate sep pieces).data
      = sep.data.intercalate (pieces.map String.data) := by
  cases pieces with
  | nil => simp [String.intercalate, List.intercalate]
  | cons head tail =>
    rw [String.intercalate, intercalate_go_data, List.intercalate, List.map_cons,
      flatten_intersperse_cons, List.map_map]
    rfl

/-- Splitting a join on its separator gives the joined strings back, when
there is at least one and none of them contains the separator. -/
theorem splitOnChar_intercalate (sep : Char) (pieces : List String)
    (hne : pieces ≠ []) (hfree : ∀ piece ∈ pieces, sep ∉ piece.data) :
    splitOnChar (String.intercalate (String.singleton sep) pieces) sep = pieces := by
  have hsep : (String.singleton sep).data = [sep] := rfl
  rw [splitOnChar, intercalate_data, hsep,
    List.splitOn_intercalate _ sep (by simpa using hfree) (by simpa using hne),
    List.map_map]
  have hid : (String.mk ∘ String.data) = id := funext fun piece => rfl
  rw [hid, List.map_id]

/-- The clauses of the non-empty filters are the non-empty entries of the table,
each rendered as its field text followed by its value. -/
theorem specClauses_eq_filter_map (spec : GetIncidentsSpec) :
    specClauses spec
      = ((filterTable spec).filter (fun entry => entry.2 ≠ "")).map
          (fun entry => entry.1 ++ entry.2) := by
  unfold specClauses
  induction filterTable spec with
  | nil => rfl
  | cons entry rest ih =>
    by_cases h : entry.2 = ""
    · simp [List.filterMap_cons, clauseOf, h, ih]
    · simp [List.filterMap_cons, clauseOf, h, ih]

/-- No field text of the table contains the separator `^`. -/
theorem filterTable_field_free (spec : GetIncidentsSpec) :
    ∀ entry ∈ filterTable spec, '^' ∉ entry.1.data := by
  intro entry hmem
  simp only [filterTable, List.mem_cons, List.mem_singleton, List.not_mem_nil,
    or_false] at hmem
  rcases hmem with h | h | h | h | h | h | h | h | h | h <;> subst h <;>
    (dsimp only; decide)

/-- C11. For a filter specification with at least one non-empty filter and no
`^` in any filter value, splitting `buildQuery spec` on `^` gives back the
per-field clauses: one per non-empty filter, in declaration order, each being
its own field text followed by its value; so there are as many pieces as
non-empty filters. -/
theorem buildQuery_split (spec : GetIncidentsSpec)
    (hsome : ∃ entry ∈ filterTable spec, entry.2 ≠ "")
    (hfree : ∀ entry ∈ filterTable spec, '^' ∉ entry.2.data) :
    splitOnChar (buildQuery spec) '^'
        = ((filterTable spec).filter (fun entry => entry.2 ≠ "")).map
            (fun entry => entry.1 ++ entry.2)
      ∧ (splitOnChar (buildQuery spec) '^').length
          = ((filterTable spec).filter (fun entry => entry.2 ≠ "")).length := by
  have hsplit : splitOnChar (buildQuery spec) '^'
      = ((filterTable spec).filter (fun entry => entry.2 ≠ "")).map
          (fun entry => entry.1 ++ entry.2) := by
    rw [buildQuery_eq_specQuery, specQuery]
    have hcaret : ("^" : String) = String.singleton '^' := rfl
    rw [hcaret, splitOnChar_intercalate, specClauses_eq_filter_map]
    · rw [specClauses_eq_filter_map]
      obtain ⟨entry, hmem, hvalue⟩ := hsome
      intro hnil
      have : entry.1 ++ entry.2 ∈ ((filterTable spec).filter
          (fun entry => entry.2 ≠ "")).map (fun entry => entry.1 ++ entry.2) :=
        List.mem_map.mpr ⟨entry, List.mem_filter.mpr ⟨hmem, by simpa using hvalue⟩, rfl⟩
      rw [hnil] at this
      exact List.not_mem_nil _ this
    · intro piece hpiece
      rw [specClauses_eq_filter_map] at hpiece
      obtain ⟨entry, hentry, rfl⟩ := List.mem_map.mp hpiece
      have hmem := (List.mem_filter.mp hentry).1
      rw [String.data_append, List.mem_append]
      rintro (h | h)
      · exact filterTable_field_free spec entry hmem h
      · exact hfree entry hmem h
  exact ⟨hsplit, by rw [hsplit, List.length_map]⟩

/-- C11 on the filters of the package test "builds query with all filters":
seven non-empty filters, whose values hold commas but no `^`, give seven
pieces. -/
theorem buildQuery_split_witness :
    splitOnChar
        (buildQuery
          ⟨"grp1", "user1", "user2", "software", "", "", "1,2", "1", "1,2", "", 20⟩) '^'
      = ["assignment_group=grp1", "assigned_to=user1", "caller_id=user2",
          "category=software", "stateIN1,2", "urgencyIN1", "impactIN1,2"] :=
  (buildQuery_split
    ⟨"grp1", "user1", "user2", "software", "", "", "1,2", "1", "1,2", "", 20⟩
    ⟨("assignment_group=", "grp1"), by simp [filterTable], by decide⟩
    (by simp [filterTable])).1.trans (by decide)


/-! ## Severity router: properties -/

/-- The loop answers `high` exactly when some record has urgency `"1"`. -/
theorem scan_eq_high_iff (incidents : List IncidentRecord) :
    determineOutputChannel.scan incidents = ChannelNameHigh
      ↔ ∃ incident ∈ incidents, incident.Urgency = "1" := by
  induction incidents with
  | nil => simp [determineOutputChannel.scan, ChannelNameLow, ChannelNameHigh]
  | cons head rest ih =>
    by_cases h : head.Urgency = "1"
    · simp [determineOutputChannel.scan, h]
    · simp [determineOutputChannel.scan, h, ih]

/-- The loop answers `low` exactly when no record has urgency `"1"`. -/
theorem scan_eq_low_iff (incidents : List IncidentRecord) :
    determineOutputChannel.scan incidents = ChannelNameLow
      ↔ ∀ incident ∈ incidents, incident.Urgency ≠ "1" := by
  induction incidents with
  | nil => simp [determineOutputChannel.scan]
  | cons head rest ih =>
    by_cases h : head.Urgency = "1"
    · simp [determineOutputChannel.scan, h, ChannelNameLow, ChannelNameHigh]
    · simp [determineOutputChannel.scan, h, ih]

/-- The router on a non-empty list is the loop. -/
theorem determineOutputChannel_of_ne_nil (incidents : List IncidentRecord)
    (h : incidents ≠ []) :
    determineOutputChannel incidents = determineOutputChannel.scan incidents := by
  cases incidents with
  | nil => exact absurd rfl h
  | cons head rest => simp [determineOutputChannel]

/-- C2. `determineOutputChannel` returns `clear` on the empty list, `high` on a
non-empty list holding a record of urgency `"1"` at any position, and `low` on
a non-empty list holding no such record; its result is always one of the three
channel names. -/
theorem determineOutputChannel_cases (incidents : List IncidentRecord) :
    (incidents = [] → determineOutputChannel incidents = "clear")
      ∧ (incidents ≠ [] → (∃ incident ∈ incidents, incident.Urgency = "1") →
          determineOutputChannel incidents = "high")
      ∧ (incidents ≠ [] → (∀ incident ∈ incidents, incident.Urgency ≠ "1") →
          determineOutputChannel incidents = "low")
      ∧ (determineOutputChannel incidents = "clear"
          ∨ determineOutputChannel incidents = "low"
          ∨ determineOutputChannel incidents = "high") := by
  refine ⟨?_, ?_, ?_, ?_⟩
  · intro h
    subst h
    rfl
  · intro hne hex
    rw [determineOutputChannel_of_ne_nil incidents hne]
    exact (scan_eq_high_iff incidents).mpr hex
  · intro hne hall
    rw [determineOutputChannel_of_ne_nil incidents hne]
    exact (scan_eq_low_iff incidents).mpr hall
  · by_cases hnil : incidents = []
    · subst hnil
      exact Or.inl rfl
    · rw [determineOutputChannel_of_ne_nil incidents hnil]
      by_cases hex : ∃ incident ∈ incidents, incident.Urgency = "1"
      · exact Or.inr (Or.inr ((scan_eq_high_iff incidents).mpr hex))
      · refine Or.inr (Or.inl ((scan_eq_low_iff incidents).mpr ?_))
        intro incident hmem hurg
        exact hex ⟨incident, hmem, hurg⟩

/-- C2 on the lists of the package tests: no incident, a high-urgency record in
second position, and medium and low urgencies only. -/
theorem determineOutputChannel_cases_witness :
    determineOutputChannel [] = "clear"
      ∧ determineOutputChannel [sampleIncident "abc" "3", sampleIncident "def" "1"] = "high"
      ∧ determineOutputChannel [sampleIncident "abc" "2", sampleIncident "def" "3"] = "low" :=
  ⟨(determineOutputChannel_cases []).1 rfl,
   (determineOutputChannel_cases
      [sampleIncident "abc" "3", sampleIncident "def" "1"]).2.1 (by simp)
      ⟨sampleIncident "def" "1", by simp, rfl⟩,
   (determineOutputChannel_cases
      [sampleIncident "abc" "2", sampleIncident "def" "3"]).2.2.1 (by simp)
      (by simp [sampleIncident])⟩

/-- C8. The channel does not depend on the order of the records: two incident
lists that are permutations of each other get the same channel. -/
theorem determineOutputChannel_perm (first second : List IncidentRecord)
    (h : first.Perm second) :
    determineOutputChannel first = determineOutputChannel second := by
  by_cases hnil : first = []
  · subst hnil
    rw [List.Perm.nil_eq h]
  · have hnil2 : second ≠ [] := by
      intro h2
      subst h2
      exact hnil (List.Perm.eq_nil h)
    rw [determineOutputChannel_of_ne_nil first hnil,
      determineOutputChannel_of_ne_nil second hnil2]
    by_cases hex : ∃ incident ∈ first, incident.Urgency = "1"
    · have hex2 : ∃ incident ∈ second, incident.Urgency = "1" := by
        obtain ⟨incident, hmem, hurg⟩ := hex
        exact ⟨incident, h.subset hmem, hurg⟩
      rw [(scan_eq_high_iff first).mpr hex, (scan_eq_high_iff second).mpr hex2]
    · have hall : ∀ incident ∈ first, incident.Urgency ≠ "1" :=
        fun incident hmem hurg => hex ⟨incident, hmem, hurg⟩
      have hall2 : ∀ incident ∈ second, incident.Urgency ≠ "1" :=
        fun incident hmem => hall incident (h.symm.subset hmem)
      rw [(scan_eq_low_iff first).mpr hall, (scan_eq_low_iff second).mpr hall2]

/-- C8 on the mixed-urgency list of the package tests and its reversal: the
high-urgency record wins whether it is scanned last or first. -/
theorem determineOutputChannel_perm_witness :
    [sampleIncident "abc" "3", sampleIncident "def" "1"].Perm
        [sampleIncident "def" "1", sampleIncident "abc" "3"]
      ∧ determineOutputChannel [sampleIncident "abc" "3", sampleIncident "def" "1"]
          = determineOutputChannel [sampleIncident "def" "1", sampleIncident "abc" "3"] :=
  ⟨List.Perm.swap _ _ _,
   determineOutputChannel_perm _ _ (List.Perm.swap _ _ _)⟩


/-! ## Setup: properties -/

/-- C3. When the stored metadata decodes with a non-empty `InstanceURL`, `Setup`
returns success for every configuration, well-formed or not; the only
collaborator call it makes is the read of the metadata, so no client is
constructed, the resolver is not called, nothing is written, and the stored
metadata is what it was. -/
theorem Setup_noop_when_set_up {AnyValue Client : Type}
    (env : Collaborators AnyValue Client) (Configuration stored : AnyValue)
    (existing : NodeMetadata)
    (hdecode : env.decodeNodeMetadata stored = .ok existing)
    (hurl : existing.InstanceURL ≠ "") :
    (Setup env Configuration stored).err = none
      ∧ (Setup env Configuration stored).calls = [Call.MetadataGet]
      ∧ Call.NewClient ∉ (Setup env Configuration stored).calls
      ∧ (∀ resources, Call.ResolveResourceMetadata resources
          ∉ (Setup env Configuration stored).calls)
      ∧ (∀ metadata, Call.MetadataSet metadata ∉ (Setup env Configuration stored).calls)
      ∧ (Setup env Configuration stored).metadata = stored := by
  have h : Setup env Configuration stored = ⟨none, stored, [Call.MetadataGet]⟩ := by
    simp [Setup, hdecode, hurl]
  rw [h]
  simp

/-- C3 on a sample host whose metadata already holds an instance URL, called
with a malformed configuration and a resolver that would fail. -/
theorem Setup_noop_when_set_up_witness :
    (Setup (sampleHost sampleResolve none (.ok []) none) SampleValue.malformed
        (SampleValue.metadata ⟨"https://hook", "https://dev12345.service-now.com",
          none, none, none⟩)).err = none
      ∧ (Setup (sampleHost sampleResolve none (.ok []) none) SampleValue.malformed
          (SampleValue.metadata ⟨"https://hook", "https://dev12345.service-now.com",
            none, none, none⟩)).metadata
        = SampleValue.metadata ⟨"https://hook", "https://dev12345.service-now.com",
            none, none, none⟩ :=
  have h := Setup_noop_when_set_up (sampleHost sampleResolve none (.ok []) none)
    SampleValue.malformed
    (SampleValue.metadata ⟨"https://hook", "https://dev12345.service-now.com",
      none, none, none⟩)
    ⟨"https://hook", "https://dev12345.service-now.com", none, none, none⟩
    rfl (by decide)
  ⟨h.1, h.2.2.2.2.2⟩

/-- C5. On metadata with an empty `InstanceURL`, when resource resolution fails
`Setup` returns an error (the resolver's) and writes nothing: no `Set` call is
made and the stored metadata is what it was before the call. -/
theorem Setup_resolve_failure_writes_nothing {AnyValue Client : Type}
    (env : Collaborators AnyValue Client) (Configuration stored : AnyValue)
    (existing : NodeMetadata) (spec : GetIncidentsSpec) (client : Client)
    (cause : GoError)
    (hdecode : env.decodeNodeMetadata stored = .ok existing)
    (hurl : existing.InstanceURL = "")
    (hspec : env.decodeSpec Configuration = .ok spec)
    (hclient : env.NewClient = .ok client)
    (hresolve : env.resolveResourceMetadata client
        ⟨spec.AssignmentGroup, spec.AssignedTo, spec.Caller⟩ = .error cause) :
    (Setup env Configuration stored).err = some cause
      ∧ (∀ metadata, Call.MetadataSet metadata ∉ (Setup env Configuration stored).calls)
      ∧ (Setup env Configuration stored).metadata = stored := by
  have h : Setup env Configuration stored
      = ⟨some cause, stored, [Call.MetadataGet, Call.NewClient,
          Call.ResolveResourceMetadata
            ⟨spec.AssignmentGroup, spec.AssignedTo, spec.Caller⟩]⟩ := by
    simp [Setup, hdecode, hurl, hspec, hclient, hresolve]
  rw [h]
  simp

/-- C5 on the package test "invalid resource returns error": the group
`invalid-grp` fails verification and the empty metadata store stays empty. -/
theorem Setup_resolve_failure_writes_nothing_witness :
    (Setup (sampleHost sampleResolve none (.ok []) none)
        (SampleValue.config ⟨"invalid-grp", "", "", "", "", "", "", "", "", "", 0⟩)
        SampleValue.null).err
        = some (.wrapped "error verifying assignment group: "
            (.msg "request got 404 code"))
      ∧ (Setup (sampleHost sampleResolve none (.ok []) none)
          (SampleValue.config ⟨"invalid-grp", "", "", "", "", "", "", "", "", "", 0⟩)
          SampleValue.null).metadata = SampleValue.null :=
  have h := Setup_resolve_failure_writes_nothing
    (sampleHost sampleResolve none (.ok []) none)
    (SampleValue.config ⟨"invalid-grp", "", "", "", "", "", "", "", "", "", 0⟩)
    SampleValue.null NodeMetadata.zero
    ⟨"invalid-grp", "", "", "", "", "", "", "", "", "", 0⟩ ()
    (.wrapped "error verifying assignment group: " (.msg "request got 404 code"))
    rfl rfl rfl rfl (by simp [sampleHost, sampleResolve])
  ⟨h.1, h.2.2⟩

/-- C9. On metadata with an empty `InstanceURL`, when configuration decoding,
client construction and resource resolution succeed, `Setup` calls the resolver
once, with the group, assignee and caller identifiers of the configuration and
nothing else, then writes the metadata once, the written value being the record
the resolver returned whatever the prior metadata held, and returns the result
of that write. -/
theorem Setup_writes_resolved_metadata {AnyValue Client : Type}
    (env : Collaborators AnyValue Client) (Configuration stored : AnyValue)
    (existing : NodeMetadata) (spec : GetIncidentsSpec) (client : Client)
    (resolved : NodeMetadata)
    (hdecode : env.decodeNodeMetadata stored = .ok existing)
    (hurl : existing.InstanceURL = "")
    (hspec : env.decodeSpec Configuration = .ok spec)
    (hclient : env.NewClient = .ok client)
    (hresolve : env.resolveResourceMetadata client
        ⟨spec.AssignmentGroup, spec.AssignedTo, spec.Caller⟩ = .ok resolved) :
    (Setup env Configuration stored).calls
        = [Call.MetadataGet, Call.NewClient,
            Call.ResolveResourceMetadata
              ⟨spec.AssignmentGroup, spec.AssignedTo, spec.Caller⟩,
            Call.MetadataSet resolved]
      ∧ (Setup env Configuration stored).err = (env.MetadataSet stored resolved).1
      ∧ (Setup env Configuration stored).metadata
          = (env.MetadataSet stored resolved).2 := by
  have h : Setup env Configuration stored
      = ⟨(env.MetadataSet stored resolved).1, (env.MetadataSet stored resolved).2,
          [Call.MetadataGet, Call.NewClient,
            Call.ResolveResourceMetadata
              ⟨spec.AssignmentGroup, spec.AssignedTo, spec.Caller⟩,
            Call.MetadataSet resolved]⟩ := by
    simp [Setup, hdecode, hurl, hspec, hclient, hresolve]
  rw [h]
  simp

/-- C9 on the package test "valid configuration with resources verifies them",
started from metadata that holds a webhook URL and no instance URL: the three
identifiers reach the resolver and the stored metadata becomes the resolved
record, in which the webhook URL is gone. -/
theorem Setup_writes_resolved_metadata_witness :
    (Setup (sampleHost sampleResolve none (.ok []) none)
        (SampleValue.config
          ⟨"grp1", "user1", "user2", "software", "", "", "1,2", "", "", "", 20⟩)
        (SampleValue.metadata ⟨"https://hook", "", none, none, none⟩)).calls
        = [Call.MetadataGet, Call.NewClient,
            Call.ResolveResourceMetadata ⟨"grp1", "user1", "user2"⟩,
            Call.MetadataSet ⟨"", "https://dev12345.service-now.com",
              some ⟨"grp1", "Network"⟩, some ⟨"user1", "John Smith"⟩,
              some ⟨"user2", "Jane Doe"⟩⟩]
      ∧ (Setup (sampleHost sampleResolve none (.ok []) none)
          (SampleValue.config
            ⟨"grp1", "user1", "user2", "software", "", "", "1,2", "", "", "", 20⟩)
          (SampleValue.metadata ⟨"https://hook", "", none, none, none⟩)).metadata
        = SampleValue.metadata ⟨"", "https://dev12345.service-now.com",
            some ⟨"grp1", "Network"⟩, some ⟨"user1", "John Smith"⟩,
            some ⟨"user2", "Jane Doe"⟩⟩ :=
  have h := Setup_writes_resolved_metadata
    (sampleHost sampleResolve none (.ok []) none)
    (SampleValue.config
      ⟨"grp1", "user1", "user2", "software", "", "", "1,2", "", "", "", 20⟩)
    (SampleValue.metadata ⟨"https://hook", "", none, none, none⟩)
    ⟨"https://hook", "", none, none, none⟩
    ⟨"grp1", "user1", "user2", "software", "", "", "1,2", "", "", "", 20⟩ ()
    ⟨"", "https://dev12345.service-now.com", some ⟨"grp1", "Network"⟩,
      some ⟨"user1", "John Smith"⟩, some ⟨"user2", "Jane Doe"⟩⟩
    rfl rfl rfl rfl (by simp [sampleHost, sampleResolve])
  ⟨h.1, h.2.2⟩


/-! ## Execute: properties -/

/-- C4. When configuration decoding, client construction and the incident list
call succeed with incident list `L`, `Execute` makes one list call, with the
query `buildQuery spec` and the clamped limit, then one emit, on the channel
`determineOutputChannel L`, with the incidents payload type and a single
payload record whose `incidents` is `L` and whose `total` is the length of
`L`; it returns what the emit returned. -/
theorem Execute_emits_once {AnyValue Client : Type}
    (env : Collaborators AnyValue Client) (Configuration stored : AnyValue)
    (spec : GetIncidentsSpec) (client : Client) (L : List IncidentRecord)
    (hspec : env.decodeSpec Configuration = .ok spec)
    (hclient : env.NewClient = .ok client)
    (hlist : env.GetIncidents client (buildQuery spec)
        (if spec.Limit ≤ 0 then 10 else spec.Limit) = .ok L) :
    (Execute env Configuration stored).calls
        = [Call.NewClient,
            Call.GetIncidents (buildQuery spec)
              (if spec.Limit ≤ 0 then 10 else spec.Limit),
            Call.Emit (determineOutputChannel L) env.PayloadTypeIncidents
              [⟨L, L.length⟩]]
      ∧ (Execute env Configuration stored).err
          = env.Emit (determineOutputChannel L) env.PayloadTypeIncidents
              [⟨L, L.length⟩] := by
  have h : Execute env Configuration stored
      = ⟨env.Emit (determineOutputChannel L) env.PayloadTypeIncidents [⟨L, L.length⟩],
          stored,
          [Call.NewClient,
            Call.GetIncidents (buildQuery spec)
              (if spec.Limit ≤ 0 then 10 else spec.Limit),
            Call.Emit (determineOutputChannel L) env.PayloadTypeIncidents
              [⟨L, L.length⟩]]⟩ := by
    simp [Execute, hspec, hclient, hlist]
  rw [h]
  simp

/-- C4 on the package test "high urgency incidents emit to high channel":
configuration `state = "1,2"`, one incident of urgency `"1"`. -/
theorem Execute_emits_once_witness :
    (Execute (sampleHost sampleResolve none (.ok [sampleIncident "abc123" "1"]) none)
        (SampleValue.config ⟨"", "", "", "", "", "", "1,2", "", "", "", 0⟩)
        SampleValue.null).calls
        = [Call.NewClient, Call.GetIncidents "stateIN1,2" 10,
            Call.Emit "high" "servicenow.incidents"
              [⟨[sampleIncident "abc123" "1"], 1⟩]]
      ∧ (Execute (sampleHost sampleResolve none (.ok [sampleIncident "abc123" "1"]) none)
          (SampleValue.config ⟨"", "", "", "", "", "", "1,2", "", "", "", 0⟩)
          SampleValue.null).err = none :=
  Execute_emits_once
    (sampleHost sampleResolve none (.ok [sampleIncident "abc123" "1"]) none)
    (SampleValue.config ⟨"", "", "", "", "", "", "1,2", "", "", "", 0⟩)
    SampleValue.null ⟨"", "", "", "", "", "", "1,2", "", "", "", 0⟩ ()
    [sampleIncident "abc123" "1"] rfl rfl rfl

/-- C6. When the incident list call fails, `Execute` returns an error that wraps
the underlying one and whose message contains "failed to get incidents", and no
emit occurs. -/
theorem Execute_list_failure_no_emit {AnyValue Client : Type}
    (env : Collaborators AnyValue Client) (Configuration stored : AnyValue)
    (spec : GetIncidentsSpec) (client : Client) (cause : GoError)
    (hspec : env.decodeSpec Configuration = .ok spec)
    (hclient : env.NewClient = .ok client)
    (hlist : env.GetIncidents client (buildQuery spec)
        (if spec.Limit ≤ 0 then 10 else spec.Limit) = .error cause) :
    (Execute env Configuration stored).err
        = some (.wrapped "failed to get incidents: " cause)
      ∧ (∃ e, (Execute env Configuration stored).err = some e
          ∧ containsText e.Error "failed to get incidents")
      ∧ (∀ channel payloadType payloads,
          Call.Emit channel payloadType payloads
            ∉ (Execute env Configuration stored).calls) := by
  have h : Execute env Configuration stored
      = ⟨some (.wrapped "failed to get incidents: " cause), stored,
          [Call.NewClient,
            Call.GetIncidents (buildQuery spec)
              (if spec.Limit ≤ 0 then 10 else spec.Limit)]⟩ := by
    simp [Execute, hspec, hclient, hlist]
  rw [h]
  refine ⟨rfl, ⟨_, rfl, ?_⟩, ?_⟩
  · refine ⟨[], ": ".data ++ cause.Error.data, ?_⟩
    simp [GoError.Error, String.data_append]
  · simp

/-- C6 on the package test "API error returns error": the list call answers
with an authorisation failure. -/
theorem Execute_list_failure_no_emit_witness :
    (Execute (sampleHost sampleResolve none (.error (.msg "request got 401 code")) none)
        SampleValue.null SampleValue.null).err
        = some (.wrapped "failed to get incidents: " (.msg "request got 401 code"))
      ∧ (Execute (sampleHost sampleResolve none (.error (.msg "request got 401 code")) none)
          SampleValue.null SampleValue.null).calls
        = [Call.NewClient, Call.GetIncidents "" 10] :=
  ⟨(Execute_list_failure_no_emit
      (sampleHost sampleResolve none (.error (.msg "request got 401 code")) none)
      SampleValue.null SampleValue.null GetIncidentsSpec.zero ()
      (.msg "request got 401 code") rfl rfl rfl).1,
   rfl⟩

/-- C7. Whenever `Execute` reaches the incident list call, the limit it passes
is 10 when the configured limit is at most 0 and the configured limit itself
when that is positive; the limit passed is always strictly positive. -/
theorem Execute_limit_clamped {AnyValue Client : Type}
    (env : Collaborators AnyValue Client) (Configuration stored : AnyValue)
    (spec : GetIncidentsSpec) (client : Client)
    (hspec : env.decodeSpec Configuration = .ok spec)
    (hclient : env.NewClient = .ok client) :
    (∃ limit, Call.GetIncidents (buildQuery spec) limit
        ∈ (Execute env Configuration stored).calls)
      ∧ (∀ query limit,
          Call.GetIncidents query limit ∈ (Execute env Configuration stored).calls →
            (spec.Limit ≤ 0 → limit = 10)
              ∧ (0 < spec.Limit → limit = spec.Limit)
              ∧ 0 < limit) := by
  have hpos : (0 : Int) < (if spec.Limit ≤ 0 then 10 else spec.Limit) := by
    split <;> omega
  cases hlist : env.GetIncidents client (buildQuery spec)
      (if spec.Limit ≤ 0 then 10 else spec.Limit) with
  | error cause =>
    have h : (Execute env Configuration stored).calls
        = [Call.NewClient,
            Call.GetIncidents (buildQuery spec)
              (if spec.Limit ≤ 0 then 10 else spec.Limit)] := by
      simp [Execute, hspec, hclient, hlist]
    rw [h]
    refine ⟨⟨(if spec.Limit ≤ 0 then 10 else spec.Limit), by simp⟩, ?_⟩
    intro query limit hmem
    simp at hmem
    obtain ⟨-, hlimit⟩ := hmem
    subst hlimit
    refine ⟨fun hle => by simp [hle], fun hlt => ?_, hpos⟩
    have : ¬ spec.Limit ≤ 0 := by omega
    simp [this]
  | ok incidents =>
    have h : (Execute env Configuration stored).calls
        = [Call.NewClient,
            Call.GetIncidents (buildQuery spec)
              (if spec.Limit ≤ 0 then 10 else spec.Limit),
            Call.Emit (determineOutputChannel incidents) env.PayloadTypeIncidents
              [⟨incidents, incidents.length⟩]] := by
      simp [Execute, hspec, hclient, hlist]
    rw [h]
    refine ⟨⟨(if spec.Limit ≤ 0 then 10 else spec.Limit), by simp⟩, ?_⟩
    intro query limit hmem
    simp at hmem
    obtain ⟨-, hlimit⟩ := hmem
    subst hlimit
    refine ⟨fun hle => by simp [hle], fun hlt => ?_, hpos⟩
    have : ¬ spec.Limit ≤ 0 := by omega
    simp [this]

/-- C7 on a negative limit and on the limit 20 of the package test "builds
query with all filters". -/
theorem Execute_limit_clamped_witness :
    Call.GetIncidents "" 10
        ∈ (Execute (sampleHost sampleResolve none (.ok []) none)
            (SampleValue.config ⟨"", "", "", "", "", "", "", "", "", "", -3⟩)
            SampleValue.null).calls
      ∧ ∀ limit, Call.GetIncidents "urgencyIN1" limit
          ∈ (Execute (sampleHost sampleResolve none (.ok []) none)
              (SampleValue.config ⟨"", "", "", "", "", "", "", "1", "", "", 20⟩)
              SampleValue.null).calls → limit = 20 :=
  ⟨by decide,
   fun limit hmem =>
    ((Execute_limit_clamped (sampleHost sampleResolve none (.ok []) none)
      (SampleValue.config ⟨"", "", "", "", "", "", "", "1", "", "", 20⟩)
      SampleValue.null ⟨"", "", "", "", "", "", "", "1", "", "", 20⟩ () rfl rfl).2
      "urgencyIN1" limit hmem).2.1 (by decide)⟩


/-! ## Error propagation -/

end ServiceNow

namespace CLI

open ServiceNow (GoError)

/-! ## Selectors: the stored current context -/

/-- C12. The round trip fails on a context without organization. For the
context with URL `https://app.superplane.com`, an empty organization and a
token, which `normalizeContext` leaves as it is and `GetContexts` returns,
`ContextSelector` gives `https://app.superplane.com/`, and
`normalizeContextSelector` turns that into `https:/app.superplane.com`.
So after `UpsertContext` has succeeded on the empty store, `GetCurrentContext`
answers with the zero context and `false`, and `SaveCurrentContextBySelector`
on the context's own selector fails, leaving the store as it was. -/
theorem current_context_lost_without_organization :
    normalizeContext ⟨"https://app.superplane.com", "", "token"⟩
        = ⟨"https://app.superplane.com", "", "token"⟩
      ∧ GetContexts ⟨some [⟨"https://app.superplane.com", "", "token"⟩], "", 0⟩
        = [⟨"https://app.superplane.com", "", "token"⟩]
      ∧ ContextSelector ⟨"https://app.superplane.com", "", "token"⟩
        = "https://app.superplane.com/"
      ∧ normalizeContextSelector
          (ContextSelector ⟨"https://app.superplane.com", "", "token"⟩)
        = "https:/app.superplane.com"
      ∧ UpsertContext none ⟨some [], "", 0⟩ ⟨"https://app.superplane.com", "", "token"⟩
        = (.ok ⟨"https://app.superplane.com", "", "token"⟩,
            ⟨some [⟨"https://app.superplane.com", "", "token"⟩],
              "https://app.superplane.com/", 1⟩)
      ∧ GetCurrentContext
          (UpsertContext none ⟨some [], "", 0⟩
            ⟨"https://app.superplane.com", "", "token"⟩).2
        = (ConfigContext.zero, false)
      ∧ SaveCurrentContextBySelector none
          ⟨some [⟨"https://app.superplane.com", "", "token"⟩], "", 0⟩
          "https://app.superplane.com/"
        = (.error (.msg ("context " ++ "https:/app.superplane.com".quote ++ " not found")),
            ⟨some [⟨"https://app.superplane.com", "", "token"⟩], "", 0⟩) := by
  refine ⟨by decide, by decide, by decide, by decide, rfl, by decide, rfl⟩

/-! ## UpsertContext and the uniqueness of selectors -/

/-- The selector search either finds no context with the selector and answers
`-1`, or answers the start index plus the position of a context that has it. -/
theorem selectorIndex_spec (selector : String) (contexts : List ConfigContext)
    (index : Int) :
    ((∀ existing ∈ contexts, ContextSelector existing ≠ selector)
        ∧ selectorIndex selector contexts index = -1)
      ∨ (∃ (i : Nat) (existing : ConfigContext), contexts[i]? = some existing
        ∧ ContextSelector existing = selector
        ∧ selectorIndex selector contexts index = index + i) := by
  induction contexts generalizing index with
  | nil => exact Or.inl ⟨by simp, rfl⟩
  | cons head rest ih =>
    by_cases hhead : ContextSelector head = selector
    · refine Or.inr ⟨0, head, by simp, hhead, ?_⟩
      simp [selectorIndex, hhead]
    · rcases ih (index + 1) with ⟨hnone, hresult⟩ | ⟨i, existing, hget, hsel, hresult⟩
      · refine Or.inl ⟨?_, ?_⟩
        · intro existing hmem
          rcases List.mem_cons.mp hmem with h | h
          · rw [h]
            exact hhead
          · exact hnone existing h
        · simp [selectorIndex, hhead, hresult]
      · refine Or.inr ⟨i + 1, existing, by simpa using hget, hsel, ?_⟩
        simp only [selectorIndex, hhead, if_false, hresult]
        push_cast
        omega

/-- Replacing a context by one with the same selector leaves the list of
selectors as it was. -/
theorem map_selector_set (contexts : List ConfigContext) (i : Nat)
    (existing context : ConfigContext) (hget : contexts[i]? = some existing)
    (hsel : ContextSelector existing = ContextSelector context) :
    (contexts.set i context).map ContextSelector = contexts.map ContextSelector := by
  apply List.ext_getElem?
  intro n
  by_cases hn : i = n
  · subst hn
    have hlt : i < contexts.length := (List.getElem?_eq_some.mp hget).1
    rw [List.map_set, List.getElem?_set_self (by simpa using hlt), List.getElem?_map, hget]
    simp [hsel]
  · rw [List.map_set, List.getElem?_set_ne hn]

/-- `UpsertContext` on a context whose normalised URL and API token are not
empty, when the configuration file can be written. -/
theorem UpsertContext_of_valid (viper : Viper) (context : ConfigContext)
    (hurl : (normalizeContext context).URL ≠ "")
    (htoken : (normalizeContext context).APIToken ≠ "") :
    UpsertContext none viper context
      = (.ok (normalizeContext context),
          ⟨some
            (if selectorIndex (ContextSelector (normalizeContext context))
                (GetContexts viper) 0 ≥ 0 then
              (GetContexts viper).set
                (selectorIndex (ContextSelector (normalizeContext context))
                  (GetContexts viper) 0).toNat (normalizeContext context)
            else GetContexts viper ++ [normalizeContext context]),
            ContextSelector (normalizeContext context), viper.writes + 1⟩) := by
  simp only [UpsertContext, WriteConfig, if_neg hurl, if_neg htoken]

/-- `UpsertContext` succeeds only on a context whose normalised URL and API
token are not empty, and only when the configuration file can be written. -/
theorem UpsertContext_ok_inv (writeErr : Option GoError) (viper : Viper)
    (context result : ConfigContext)
    (hok : (UpsertContext writeErr viper context).1 = .ok result) :
    (normalizeContext context).URL ≠ "" ∧ (normalizeContext context).APIToken ≠ ""
      ∧ writeErr = none := by
  by_cases hurl : (normalizeContext context).URL = ""
  · simp [UpsertContext, hurl] at hok
  · by_cases htoken : (normalizeContext context).APIToken = ""
    · simp [UpsertContext, hurl, htoken] at hok
    · cases writeErr with
      | none => exact ⟨hurl, htoken, rfl⟩
      | some err => simp [UpsertContext, WriteConfig, hurl, htoken] at hok

/-- What `UpsertContext` stores. If the contexts `GetContexts` returns before
the call have pairwise distinct selectors and the call succeeds, it returns the
normalised context, and the list handed to viper has pairwise distinct
selectors and holds the normalised context exactly once: it is the old list
with the context of the same selector replaced, of the old length, or, when
there was none, with the normalised context appended, of the old length plus
one. If the normalised URL or API token is empty, the call fails and the store
is left exactly as it was. This speaks of the list as stored, before
`GetContexts` normalises it again on the next read. -/
theorem UpsertContext_stored_list (writeErr : Option GoError) (viper : Viper)
    (context : ConfigContext) :
    (((GetContexts viper).map ContextSelector).Nodup →
        ∀ result, (UpsertContext writeErr viper context).1 = .ok result →
          ∃ saved, (UpsertContext writeErr viper context).2.contexts = some saved
            ∧ (UpsertContext writeErr viper context).2.writes = viper.writes + 1
            ∧ result = normalizeContext context
            ∧ (saved.map ContextSelector).Nodup
            ∧ saved.count (normalizeContext context) = 1
            ∧ ((∃ (i : Nat) (existing : ConfigContext),
                  (GetContexts viper)[i]? = some existing
                ∧ ContextSelector existing = ContextSelector (normalizeContext context)
                ∧ saved = (GetContexts viper).set i (normalizeContext context)
                ∧ saved.length = (GetContexts viper).length)
              ∨ ((∀ existing ∈ GetContexts viper,
                    ContextSelector existing ≠ ContextSelector (normalizeContext context))
                ∧ saved = GetContexts viper ++ [normalizeContext context]
                ∧ saved.length = (GetContexts viper).length + 1)))
      ∧ ((normalizeContext context).URL = "" ∨ (normalizeContext context).APIToken = "" →
          (∃ err, (UpsertContext writeErr viper context).1 = .error err)
            ∧ (UpsertContext writeErr viper context).2 = viper) := by
  constructor
  · intro hnodup result hok
    obtain ⟨hurl, htoken, hwrite⟩ := UpsertContext_ok_inv writeErr viper context result hok
    subst hwrite
    rw [UpsertContext_of_valid viper context hurl htoken] at hok ⊢
    have hresult : result = normalizeContext context := by
      simpa using hok.symm
    rcases selectorIndex_spec (ContextSelector (normalizeContext context))
        (GetContexts viper) 0 with ⟨hnone, hindex⟩ | ⟨i, existing, hget, hsel, hindex⟩
    · have hsaved : (if selectorIndex (ContextSelector (normalizeContext context))
            (GetContexts viper) 0 ≥ 0 then
          (GetContexts viper).set
            (selectorIndex (ContextSelector (normalizeContext context))
              (GetContexts viper) 0).toNat (normalizeContext context)
          else GetContexts viper ++ [normalizeContext context])
          = GetContexts viper ++ [normalizeContext context] := by
        rw [hindex]
        simp
      have hnodup2 : ((GetContexts viper ++ [normalizeContext context]).map
          ContextSelector).Nodup := by
        rw [List.map_append, List.map_singleton]
        refine List.Nodup.append hnodup (List.nodup_singleton _) ?_
        intro selector hleft hright
        obtain ⟨existing, hmem, hsel⟩ := List.mem_map.mp hleft
        rw [List.mem_singleton] at hright
        exact hnone existing hmem (hsel.trans hright)
      refine ⟨_, congrArg some hsaved, rfl, hresult, hnodup2, ?_, Or.inr ⟨hnone, rfl, ?_⟩⟩
      · exact List.count_eq_one_of_mem (List.Nodup.of_map _ hnodup2) (by simp)
      · simp
    · have hlt : i < (GetContexts viper).length := (List.getElem?_eq_some.mp hget).1
      have hsaved : (if selectorIndex (ContextSelector (normalizeContext context))
            (GetContexts viper) 0 ≥ 0 then
          (GetContexts viper).set
            (selectorIndex (ContextSelector (normalizeContext context))
              (GetContexts viper) 0).toNat (normalizeContext context)
          else GetContexts viper ++ [normalizeContext context])
          = (GetContexts viper).set i (normalizeContext context) := by
        rw [hindex]
        simp
      have hnodup2 : (((GetContexts viper).set i (normalizeContext context)).map
          ContextSelector).Nodup := by
        rw [map_selector_set _ i existing _ hget hsel]
        exact hnodup
      refine ⟨_, congrArg some hsaved, rfl, hresult, hnodup2, ?_,
        Or.inl ⟨i, existing, hget, hsel, rfl, by simp⟩⟩
      refine List.count_eq_one_of_mem (List.Nodup.of_map _ hnodup2) ?_
      exact List.mem_iff_getElem?.mpr ⟨i, by simp [List.getElem?_set_self hlt]⟩
  · intro hempty
    by_cases hurl : (normalizeContext context).URL = ""
    · simp [UpsertContext, hurl]
    · have htoken : (normalizeContext context).APIToken = "" :=
        hempty.resolve_left hurl
      simp [UpsertContext, hurl, htoken]

/-- C13. Uniqueness of selectors is lost on a URL with white space before
its trailing slashes. The store holds the one context `https://x.io`, `acme`,
`t1`, so the selectors `GetContexts` sees are distinct. `UpsertContext` of the
URL `https://x.io / /` with the same organization and the token `t2` succeeds:
the URL is normalised to `https://x.io / `, its selector `https://x.io /acme`
matches nothing, and the context is appended. On the next read `GetContexts`
normalises the stored URL again, to `https://x.io `, and the two contexts it
returns both have the selector `https://x.io/acme`; the context the call
returned is not among them, and `GetCurrentContext` answers with the old
context and its token `t1`. -/
theorem UpsertContext_selector_clash :
    ((GetContexts ⟨some [⟨"https://x.io", "acme", "t1"⟩], "https://x.io/acme", 0⟩).map
        ContextSelector).Nodup
      ∧ UpsertContext none ⟨some [⟨"https://x.io", "acme", "t1"⟩], "https://x.io/acme", 0⟩
          ⟨"https://x.io / /", "acme", "t2"⟩
        = (.ok ⟨"https://x.io / ", "acme", "t2"⟩,
            ⟨some [⟨"https://x.io", "acme", "t1"⟩, ⟨"https://x.io / ", "acme", "t2"⟩],
              "https://x.io /acme", 1⟩)
      ∧ GetContexts
          (UpsertContext none ⟨some [⟨"https://x.io", "acme", "t1"⟩], "https://x.io/acme", 0⟩
            ⟨"https://x.io / /", "acme", "t2"⟩).2
        = [⟨"https://x.io", "acme", "t1"⟩, ⟨"https://x.io ", "acme", "t2"⟩]
      ∧ (GetContexts
          (UpsertContext none ⟨some [⟨"https://x.io", "acme", "t1"⟩], "https://x.io/acme", 0⟩
            ⟨"https://x.io / /", "acme", "t2"⟩).2).map ContextSelector
        = ["https://x.io/acme", "https://x.io/acme"]
      ∧ ¬ ((GetContexts
          (UpsertContext none ⟨some [⟨"https://x.io", "acme", "t1"⟩], "https://x.io/acme", 0⟩
            ⟨"https://x.io / /", "acme", "t2"⟩).2).map ContextSelector).Nodup
      ∧ normalizeContext ⟨"https://x.io / /", "acme", "t2"⟩
          ∉ GetContexts
            (UpsertContext none
              ⟨some [⟨"https://x.io", "acme", "t1"⟩], "https://x.io/acme", 0⟩
              ⟨"https://x.io / /", "acme", "t2"⟩).2
      ∧ GetCurrentContext
          (UpsertContext none ⟨some [⟨"https://x.io", "acme", "t1"⟩], "https://x.io/acme", 0⟩
            ⟨"https://x.io / /", "acme", "t2"⟩).2
        = (⟨"https://x.io", "acme", "t1"⟩, true) := by
  refine ⟨by decide, rfl, by decide, by decide, by decide, by decide, by decide⟩

/-! ## Normalisation applied twice -/

/-- Trimming white space changes nothing in a list of characters that neither
begins nor ends with white space. -/
theorem trim_stable (l : List Char)
    (hhead : ∀ c, l.head? = some c → isSpace c = false)
    (hlast : ∀ c, l.getLast? = some c → isSpace c = false) :
    (l.dropWhile isSpace).rdropWhile isSpace = l := by
  have hdrop : l.dropWhile isSpace = l := by
    cases l with
    | nil => rfl
    | cons c rest =>
      have hc : isSpace c = false := hhead c rfl
      simp [List.dropWhile, hc]
  rw [hdrop, List.rdropWhile_eq_self_iff]
  intro hne
  have := hlast (l.getLast hne) (List.getLast?_eq_getLast l hne)
  simp [this]

/-- What is left after `TrimSpace` does not begin with white space. -/
theorem TrimSpace_head (s : String) :
    ∀ c, (TrimSpace s).data.head? = some c → isSpace c = false := by
  intro c hc
  have hprefix : (TrimSpace s).data <+: s.data.dropWhile isSpace :=
    List.rdropWhile_prefix isSpace _
  have hne : (TrimSpace s).data ≠ [] := by
    intro hnil
    rw [hnil] at hc
    exact Option.noConfusion hc
  have hdne : s.data.dropWhile isSpace ≠ [] := by
    intro hnil
    rw [hnil] at hprefix
    exact hne (List.prefix_nil.mp hprefix)
  have hhead := List.IsPrefix.head hprefix hne
  have hnot := List.head_dropWhile_not isSpace s.data hdne
  rw [List.head?_eq_head hne, Option.some.injEq] at hc
  rw [← hc, hhead]
  exact hnot

/-- What is left after `TrimSpace` does not end with white space. -/
theorem TrimSpace_last (s : String) :
    ∀ c, (TrimSpace s).data.getLast? = some c → isSpace c = false := by
  intro c hc
  have hne : (TrimSpace s).data ≠ [] := by
    intro hnil
    rw [hnil] at hc
    exact Option.noConfusion hc
  have hnot := List.rdropWhile_last_not isSpace (s.data.dropWhile isSpace) hne
  rw [List.getLast?_eq_getLast _ hne, Option.some.injEq] at hc
  rw [← hc]
  simpa using hnot

/-- Go's `strings.TrimSpace` is idempotent. -/
theorem TrimSpace_idempotent (s : String) : TrimSpace (TrimSpace s) = TrimSpace s := by
  have h := trim_stable (TrimSpace s).data (TrimSpace_head s) (TrimSpace_last s)
  show (⟨((TrimSpace s).data.dropWhile isSpace).rdropWhile isSpace⟩ : String) = TrimSpace s
  rw [h]

/-- A normalised base URL does not begin with white space. -/
theorem normalizeBaseURL_head (s : String) :
    ∀ c, (normalizeBaseURL s).data.head? = some c → isSpace c = false := by
  intro c hc
  have hprefix : (normalizeBaseURL s).data <+: (TrimSpace s).data :=
    List.rdropWhile_prefix _ _
  have hne : (normalizeBaseURL s).data ≠ [] := by
    intro hnil
    rw [hnil] at hc
    exact Option.noConfusion hc
  have hhead := List.IsPrefix.head hprefix hne
  have htne : (TrimSpace s).data ≠ [] := by
    intro hnil
    rw [hnil] at hprefix
    exact hne (List.prefix_nil.mp hprefix)
  apply TrimSpace_head s c
  rw [List.head?_eq_head hne, Option.some.injEq] at hc
  rw [List.head?_eq_head htne, ← hhead, hc]

/-- A normalised base URL that does not end in white space is a fixed point of
`normalizeBaseURL`. -/
theorem normalizeBaseURL_stable (s : String)
    (hclean : endsInSpace (normalizeBaseURL s) = false) :
    normalizeBaseURL (normalizeBaseURL s) = normalizeBaseURL s := by
  have hlast : ∀ c, (normalizeBaseURL s).data.getLast? = some c → isSpace c = false := by
    intro c hc
    simpa [endsInSpace, hc] using hclean
  have htrim : TrimSpace (normalizeBaseURL s) = normalizeBaseURL s := by
    show (⟨((normalizeBaseURL s).data.dropWhile isSpace).rdropWhile isSpace⟩ : String)
      = normalizeBaseURL s
    rw [trim_stable _ (normalizeBaseURL_head s) hlast]
  show TrimRight (TrimSpace (normalizeBaseURL s)) "/" = normalizeBaseURL s
  rw [htrim]
  show (⟨List.rdropWhile (fun c => "/".data.contains c)
      (List.rdropWhile (fun c => "/".data.contains c) (TrimSpace s).data)⟩ : String)
    = ⟨List.rdropWhile (fun c => "/".data.contains c) (TrimSpace s).data⟩
  rw [List.rdropWhile_idempotent]

/-- C14. Normalisation is not idempotent on a URL with white space before its
trailing slash. `normalizeBaseURL` turns `https://x.io /` into `https://x.io `,
still ending in the space it set out to trim, and a second call removes it; so
neither `normalizeBaseURL` nor `normalizeContext` is idempotent, and a context
normalised once comes back changed when `GetContexts` normalises it again.
`UpsertContext` on the empty store thus returns a context with the URL
`https://x.io ` while the store, read back, holds the URL `https://x.io`. -/
theorem normalisation_not_idempotent :
    normalizeBaseURL "https://x.io /" = "https://x.io "
      ∧ normalizeBaseURL (normalizeBaseURL "https://x.io /") = "https://x.io"
      ∧ normalizeBaseURL (normalizeBaseURL "https://x.io /")
          ≠ normalizeBaseURL "https://x.io /"
      ∧ normalizeContext (normalizeContext ⟨"https://x.io /", "acme", "token"⟩)
          ≠ normalizeContext ⟨"https://x.io /", "acme", "token"⟩
      ∧ GetContexts ⟨some [normalizeContext ⟨"https://x.io /", "acme", "token"⟩], "", 0⟩
          ≠ [normalizeContext ⟨"https://x.io /", "acme", "token"⟩]
      ∧ (UpsertContext none ⟨some [], "", 0⟩ ⟨"https://x.io /", "acme", "token"⟩).1
          = .ok ⟨"https://x.io ", "acme", "token"⟩
      ∧ GetContexts
          (UpsertContext none ⟨some [], "", 0⟩ ⟨"https://x.io /", "acme", "token"⟩).2
          = [⟨"https://x.io", "acme", "token"⟩] := by
  refine ⟨by decide, by decide, by decide, by decide, by decide, rfl, by decide⟩

end CLI
